import Mathlib

/-!
Verification of the Tic-Tac-Toe game-area client core of this repository.

The definitions below are a shallow embedding of the TypeScript sources:

* `src/frontend/src/classes/interactable/TicTacToeAreaController.ts`
  (board projection, turn resolution, winner, status, gamePiece,
  `_updateFrom` reconciliation, `makeMove`);
* `src/frontend/src/components/Town/interactables/Leaderboard.tsx`
  (leaderboard aggregation and sorting).

JavaScript values are translated as follows: a possibly-undefined value of
type `T` becomes `Option T`; string identifiers become `String`; arrays
become `List`; a JS `Map` becomes an ordered association list with
update-in-place / append-on-new-key semantics; object reference identity
(the JS operator with three equals signs applied to two objects) is
translated by giving each runtime object a `ref : Nat` identity tag and
comparing tags; thrown errors become `Except String`.
-/

namespace TTT

/-- A game piece mark, the TS literal type of the two marks. -/
inductive Piece where
  | X
  | O
deriving DecidableEq, Repr

/-- The opposite mark. -/
def Piece.other : Piece → Piece
  | .X => .O
  | .O => .X

/-- A board cell: `TicTacToeCell = 'X' | 'O' | undefined`. -/
abbrev TicTacToeCell := Option Piece

/-- `TicTacToeMove` from `CoveyTownSocket`: a mark placed at a grid position.
Rows and columns are `0..2` in TS (`TicTacToeGridPosition`); here they are
`Nat` and the `0..2` bound is carried as a hypothesis where needed. -/
structure TicTacToeMove where
  gamePiece : Piece
  row : Nat
  col : Nat
deriving DecidableEq, Repr

/-- `GameStatus` from `CoveyTownSocket`. -/
inductive GameStatus where
  | WAITING_TO_START
  | IN_PROGRESS
  | OVER
deriving DecidableEq, Repr

/-- `TicTacToeGameState`: the snapshot state pushed from the server.
`x`, `o` and `winner` are occupant ids, each possibly undefined. -/
structure TicTacToeGameState where
  status : GameStatus
  x : Option String
  o : Option String
  moves : List TicTacToeMove
  winner : Option String
deriving DecidableEq, Repr

/-- A game instance inside a `GameArea` model: `{id, players, state}`. -/
structure GameInstance where
  id : String
  players : List String
  state : TicTacToeGameState
deriving DecidableEq, Repr

/-- The part of the `GameArea` model the controller reads: the optional
current game instance. -/
structure GameAreaModel where
  game : Option GameInstance
deriving DecidableEq, Repr

/-- A `PlayerController`: an externally owned identity.  `ref` is the
object-identity tag used to translate JS reference equality; `id` is the
occupant id string. -/
structure PlayerController where
  ref : Nat
  id : String
deriving DecidableEq, Repr

/-- The controller state read by the accessors of
`TicTacToeAreaController`: the last applied model, the roster this
controller resolves ids against (`this.observers`, maintained by the
externally owned base class), the town controller's local viewer
(`this._townController.ourPlayer`) and the stored game instance id. -/
structure ControllerState where
  model : GameAreaModel
  observers : List PlayerController
  ourPlayer : PlayerController
  instanceID : Option String
deriving DecidableEq, Repr

/-! ## Board projector (`get board`, TicTacToeAreaController.ts lines 38-51) -/

/-- The fresh all-undefined 3x3 grid the `board` getter starts from. -/
def emptyBoard : List (List TicTacToeCell) :=
  [[none, none, none], [none, none, none], [none, none, none]]

/-- One loop iteration of the `board` getter: `ret[move.row][move.col] =
move.gamePiece`.  For in-range coordinates this matches the JS array
write; out-of-range coordinates are undefined behavior in the spec and
are a no-op here. -/
def setCell (b : List (List TicTacToeCell)) (r c : Nat) (p : Piece) :
    List (List TicTacToeCell) :=
  b.set r ((b.getD r []).set c (some p))

/-- The board projector: fold the moves over the empty grid, exactly the
`for (const move of currentBoard)` loop of the `board` getter. -/
def boardOf (moves : List TicTacToeMove) : List (List TicTacToeCell) :=
  moves.foldl (fun b m => setCell b m.row m.col m.gamePiece) emptyBoard

/-- Reading cell `[r][c]` of a projected board. -/
def getCell (b : List (List TicTacToeCell)) (r c : Nat) : TicTacToeCell :=
  (b.getD r []).getD c none

/-- Number of non-empty cells of a board. -/
def countFilled (b : List (List TicTacToeCell)) : Nat :=
  (b.map (fun row => row.countP (fun cell => cell.isSome))).sum

/-- The mark of the last move of `ms` at cell `(r, c)`, if any: the value
the JS loop leaves at that cell. -/
def lastAt : List TicTacToeMove → Nat → Nat → Option Piece
  | [], _, _ => none
  | m :: ms, r, c =>
    match lastAt ms r c with
    | some p => some p
    | none => if m.row = r ∧ m.col = c then some m.gamePiece else none

/-- A board is a 3x3 grid. -/
def Shape3 (b : List (List TicTacToeCell)) : Prop :=
  b.length = 3 ∧ ∀ row ∈ b, row.length = 3

/-- All moves have in-range coordinates. -/
def movesInRange (ms : List TicTacToeMove) : Prop :=
  ∀ m ∈ ms, m.row < 3 ∧ m.col < 3

/-- No two moves occupy the same cell (the append-only, no-overwrite
server invariant of the spec data model). -/
def cellsDistinct (ms : List TicTacToeMove) : Prop :=
  List.Pairwise (fun m1 m2 => ¬(m1.row = m2.row ∧ m1.col = m2.col)) ms

theorem shape3_emptyBoard : Shape3 emptyBoard := by
  constructor
  · rfl
  · decide

theorem getD_set_ne {α : Type} (l : List α) (i j : Nat) (x d : α) (h : i ≠ j) :
    (l.set i x).getD j d = l.getD j d := by
  induction l generalizing i j with
  | nil => simp
  | cons a t ih =>
    cases i with
    | zero =>
      cases j with
      | zero => exact absurd rfl h
      | succ j2 => simp [List.getD]
    | succ i2 =>
      cases j with
      | zero => simp [List.getD]
      | succ j2 =>
        simp only [List.set, List.getD_cons_succ]
        exact ih i2 j2 (fun hij => h (by omega))

theorem getD_set_self {α : Type} (l : List α) (i : Nat) (x d : α)
    (h : i < l.length) : (l.set i x).getD i d = x := by
  induction l generalizing i with
  | nil => simp at h
  | cons a t ih =>
    cases i with
    | zero => rfl
    | succ i2 =>
      simp only [List.set, List.getD_cons_succ]
      exact ih i2 (by simpa using h)

theorem set_of_length_le {α : Type} (l : List α) (i : Nat) (x : α)
    (h : l.length ≤ i) : l.set i x = l := by
  induction l generalizing i with
  | nil => rfl
  | cons a t ih =>
    cases i with
    | zero => simp at h
    | succ i2 =>
      simp only [List.set]
      rw [ih i2 (by simpa using h)]

theorem getD_mem {α : Type} (l : List α) (i : Nat) (d : α)
    (h : i < l.length) : l.getD i d ∈ l := by
  induction l generalizing i with
  | nil => simp at h
  | cons a t ih =>
    cases i with
    | zero => simp [List.getD]
    | succ i2 =>
      simp only [List.getD_cons_succ]
      exact List.mem_cons_of_mem a (ih i2 (by simpa using h))

theorem shape3_setCell {b : List (List TicTacToeCell)} (hb : Shape3 b)
    (r c : Nat) (p : Piece) : Shape3 (setCell b r c p) := by
  obtain ⟨hlen, hrows⟩ := hb
  by_cases hr : r < b.length
  · constructor
    · simp [setCell, hlen]
    · intro row hrow
      rcases List.mem_or_eq_of_mem_set hrow with hmem | heq
      · exact hrows row hmem
      · subst heq
        rw [List.length_set]
        exact hrows _ (getD_mem b r [] hr)
  · unfold setCell
    rw [set_of_length_le b r _ (by omega)]
    exact ⟨hlen, hrows⟩

theorem getCell_setCell_same {b : List (List TicTacToeCell)} (hb : Shape3 b)
    {r c : Nat} (hr : r < 3) (hc : c < 3) (p : Piece) :
    getCell (setCell b r c p) r c = some p := by
  obtain ⟨hlen, hrows⟩ := hb
  have hrb : r < b.length := by omega
  have hrowlen : (b.getD r []).length = 3 := hrows _ (getD_mem b r [] hrb)
  unfold getCell setCell
  rw [getD_set_self _ _ _ _ hrb]
  rw [getD_set_self _ _ _ _ (by omega)]

theorem getCell_setCell_other {b : List (List TicTacToeCell)}
    {r2 c2 r c : Nat} (h : ¬(r2 = r ∧ c2 = c)) (p : Piece) :
    getCell (setCell b r2 c2 p) r c = getCell b r c := by
  unfold getCell setCell
  by_cases hr : r2 = r
  · subst hr
    have hcne : c2 ≠ c := fun hcc => h ⟨rfl, hcc⟩
    by_cases hrb : r2 < b.length
    · rw [getD_set_self _ _ _ _ hrb, getD_set_ne _ _ _ _ _ hcne]
    · rw [List.set_eq_of_length_le (by omega)]
  · rw [getD_set_ne _ _ _ _ _ hr]

theorem getCell_boardFold (ms : List TicTacToeMove)
    (b : List (List TicTacToeCell)) (hb : Shape3 b) {r c : Nat}
    (hr : r < 3) (hc : c < 3) :
    getCell (ms.foldl (fun acc m => setCell acc m.row m.col m.gamePiece) b) r c
      = match lastAt ms r c with
        | some p => some p
        | none => getCell b r c := by
  induction ms generalizing b with
  | nil => rfl
  | cons m ms ih =>
    simp only [List.foldl_cons, lastAt]
    rw [ih _ (shape3_setCell hb m.row m.col m.gamePiece)]
    cases hlast : lastAt ms r c with
    | some p => rfl
    | none =>
      simp only []
      by_cases hcell : m.row = r ∧ m.col = c
      · obtain ⟨hrr, hcc⟩ := hcell
        subst hrr; subst hcc
        rw [getCell_setCell_same hb hr hc]
        simp
      · rw [getCell_setCell_other hcell]
        simp [hcell]

theorem shape3_boardOf (ms : List TicTacToeMove) : Shape3 (boardOf ms) := by
  unfold boardOf
  have h : ∀ (l : List TicTacToeMove) (b : List (List TicTacToeCell)),
      Shape3 b →
      Shape3 (l.foldl (fun acc m => setCell acc m.row m.col m.gamePiece) b) := by
    intro l
    induction l with
    | nil => intro b hb; exact hb
    | cons m t ih =>
      intro b hb
      exact ih _ (shape3_setCell hb m.row m.col m.gamePiece)
  exact h ms emptyBoard shape3_emptyBoard

theorem getCell_emptyBoard (r c : Nat) : getCell emptyBoard r c = none := by
  unfold getCell emptyBoard
  rcases r with _ | _ | _ | r <;> rcases c with _ | _ | _ | c <;> rfl

theorem getCell_boardOf (ms : List TicTacToeMove) {r c : Nat}
    (hr : r < 3) (hc : c < 3) : getCell (boardOf ms) r c = lastAt ms r c := by
  unfold boardOf
  rw [getCell_boardFold ms emptyBoard shape3_emptyBoard hr hc]
  cases hlast : lastAt ms r c with
  | some p => rfl
  | none => simp [getCell_emptyBoard]

theorem lastAt_eq_none_iff (ms : List TicTacToeMove) (r c : Nat) :
    lastAt ms r c = none ↔ ∀ m ∈ ms, ¬(m.row = r ∧ m.col = c) := by
  induction ms with
  | nil => simp [lastAt]
  | cons m t ih =>
    simp only [lastAt, List.mem_cons]
    cases hlast : lastAt t r c with
    | some p =>
      simp only []
      constructor
      · intro h; exact absurd h (by simp)
      · intro h
        have : lastAt t r c = none := by
          rw [ih]; intro m2 hm2; exact h m2 (Or.inr hm2)
        rw [hlast] at this; exact absurd this (by simp)
    | none =>
      simp only []
      constructor
      · intro h
        intro m2 hm2
        rcases hm2 with heq | hmem
        · subst heq
          intro hcell
          rw [if_pos hcell] at h
          exact absurd h (by simp)
        · exact (ih.mp hlast) m2 hmem
      · intro h
        rw [if_neg (h m (Or.inl rfl))]

theorem lastAt_of_mem {ms : List TicTacToeMove} (hd : cellsDistinct ms)
    {m : TicTacToeMove} (hm : m ∈ ms) :
    lastAt ms m.row m.col = some m.gamePiece := by
  induction ms with
  | nil => simp at hm
  | cons m0 t ih =>
    rcases List.pairwise_cons.mp hd with ⟨hhead, htail⟩
    rcases List.mem_cons.mp hm with heq | hmem
    · subst heq
      have hnone : lastAt t m.row m.col = none := by
        rw [lastAt_eq_none_iff]
        intro m2 hm2 hcell
        exact hhead m2 hm2 ⟨hcell.1.symm, hcell.2.symm⟩
      simp [lastAt, hnone]
    · have := ih htail hmem
      simp [lastAt, this]

instance (ms : List TicTacToeMove) : Decidable (movesInRange ms) := by
  unfold movesInRange
  infer_instance

instance (ms : List TicTacToeMove) : Decidable (cellsDistinct ms) := by
  unfold cellsDistinct
  infer_instance

theorem length_three_cases {α : Type} {l : List α} (h : l.length = 3) :
    ∃ a b c, l = [a, b, c] := by
  rcases l with _ | ⟨a, _ | ⟨b, _ | ⟨c, _ | ⟨d, t⟩⟩⟩⟩
  · simp at h
  · simp at h
  · simp at h
  · exact ⟨a, b, c, rfl⟩
  · simp at h

theorem countP_set_fresh (row : List TicTacToeCell) (c : Nat) (p : Piece)
    (hlen : row.length = 3) (hc : c < 3)
    (hnone : row.getD c none = none) :
    (row.set c (some p)).countP (fun cell => cell.isSome)
      = row.countP (fun cell => cell.isSome) + 1 := by
  obtain ⟨x, y, z, rfl⟩ := length_three_cases hlen
  interval_cases c <;> simp_all [List.getD] <;>
    rcases x with _ | px <;> rcases y with _ | py <;> rcases z with _ | pz <;>
    simp_all [List.countP_cons, List.countP_nil]

theorem countFilled_setCell_fresh {b : List (List TicTacToeCell)}
    (hb : Shape3 b) {r c : Nat} (hr : r < 3) (hc : c < 3)
    (hnone : getCell b r c = none) (p : Piece) :
    countFilled (setCell b r c p) = countFilled b + 1 := by
  obtain ⟨hlen, hrows⟩ := hb
  obtain ⟨r0, r1, r2, rfl⟩ := length_three_cases hlen
  have h0 : r0.length = 3 := hrows r0 (by simp)
  have h1 : r1.length = 3 := hrows r1 (by simp)
  have h2 : r2.length = 3 := hrows r2 (by simp)
  unfold getCell at hnone
  interval_cases r
  · have hstep : setCell [r0, r1, r2] 0 c p = [r0.set c (some p), r1, r2] := by
      simp [setCell, List.getD]
    have hn : r0.getD c none = none := by simpa [List.getD] using hnone
    rw [hstep]
    simp only [countFilled, List.map_cons, List.map_nil, List.sum_cons,
      List.sum_nil]
    rw [countP_set_fresh r0 c p h0 hc hn]
    omega
  · have hstep : setCell [r0, r1, r2] 1 c p = [r0, r1.set c (some p), r2] := by
      simp [setCell, List.getD]
    have hn : r1.getD c none = none := by simpa [List.getD] using hnone
    rw [hstep]
    simp only [countFilled, List.map_cons, List.map_nil, List.sum_cons,
      List.sum_nil]
    rw [countP_set_fresh r1 c p h1 hc hn]
    omega
  · have hstep : setCell [r0, r1, r2] 2 c p = [r0, r1, r2.set c (some p)] := by
      simp [setCell, List.getD]
    have hn : r2.getD c none = none := by simpa [List.getD] using hnone
    rw [hstep]
    simp only [countFilled, List.map_cons, List.map_nil, List.sum_cons,
      List.sum_nil]
    rw [countP_set_fresh r2 c p h2 hc hn]
    omega

theorem countFilled_boardOf (ms : List TicTacToeMove)
    (hR : movesInRange ms) (hD : cellsDistinct ms) :
    countFilled (boardOf ms) = ms.length := by
  induction ms using List.reverseRecOn with
  | nil => rfl
  | append_singleton l a ih =>
    have hRl : movesInRange l := fun m hm => hR m (by simp [hm])
    have hpair := (List.pairwise_append.mp hD)
    have hDl : cellsDistinct l := hpair.1
    have hra : a.row < 3 := (hR a (by simp)).1
    have hca : a.col < 3 := (hR a (by simp)).2
    have hfresh : getCell (boardOf l) a.row a.col = none := by
      rw [getCell_boardOf l hra hca, lastAt_eq_none_iff]
      intro m hm hcell
      exact hpair.2.2 m hm a (by simp) hcell
    have hstep : boardOf (l ++ [a]) = setCell (boardOf l) a.row a.col a.gamePiece := by
      simp [boardOf, List.foldl_append]
    rw [hstep, countFilled_setCell_fresh (shape3_boardOf l) hra hca hfresh]
    rw [ih hRl hDl]
    simp

/-- C7: for every move sequence with in-range coordinates in which each
cell is used at most once, the projected board is a 3x3 row-major grid
(`[0][0]` top-left) whose cell at each move position holds that move's
mark, whose other cells are empty, and which has exactly `moves.length`
non-empty cells. -/
theorem board_projection_correct (ms : List TicTacToeMove)
    (hR : movesInRange ms) (hD : cellsDistinct ms) :
    Shape3 (boardOf ms)
    ∧ (∀ m ∈ ms, getCell (boardOf ms) m.row m.col = some m.gamePiece)
    ∧ (∀ r c, r < 3 → c < 3 →
        (∀ m ∈ ms, ¬(m.row = r ∧ m.col = c)) → getCell (boardOf ms) r c = none)
    ∧ countFilled (boardOf ms) = ms.length := by
  refine ⟨shape3_boardOf ms, ?_, ?_, countFilled_boardOf ms hR hD⟩
  · intro m hm
    have hr := (hR m hm).1
    have hc := (hR m hm).2
    rw [getCell_boardOf ms hr hc]
    exact lastAt_of_mem hD hm
  · intro r c hr hc hnone
    rw [getCell_boardOf ms hr hc, lastAt_eq_none_iff]
    exact hnone

/-- Witness for C7 at a concrete two-move sequence. -/
theorem board_projection_correct_witness :
    movesInRange [⟨Piece.X, 0, 0⟩, ⟨Piece.O, 1, 1⟩]
    ∧ cellsDistinct [⟨Piece.X, 0, 0⟩, ⟨Piece.O, 1, 1⟩]
    ∧ (Shape3 (boardOf [⟨Piece.X, 0, 0⟩, ⟨Piece.O, 1, 1⟩])
      ∧ (∀ m ∈ [(⟨Piece.X, 0, 0⟩ : TicTacToeMove), ⟨Piece.O, 1, 1⟩],
          getCell (boardOf [⟨Piece.X, 0, 0⟩, ⟨Piece.O, 1, 1⟩]) m.row m.col
            = some m.gamePiece)
      ∧ (∀ r c, r < 3 → c < 3 →
          (∀ m ∈ [(⟨Piece.X, 0, 0⟩ : TicTacToeMove), ⟨Piece.O, 1, 1⟩],
            ¬(m.row = r ∧ m.col = c)) →
          getCell (boardOf [⟨Piece.X, 0, 0⟩, ⟨Piece.O, 1, 1⟩]) r c = none)
      ∧ countFilled (boardOf [⟨Piece.X, 0, 0⟩, ⟨Piece.O, 1, 1⟩]) = 2) :=
  ⟨by decide, by decide,
    board_projection_correct [⟨Piece.X, 0, 0⟩, ⟨Piece.O, 1, 1⟩]
      (by decide) (by decide)⟩

/-! ## Accessors of `TicTacToeAreaController` -/

/-- Error string `PLAYER_NOT_IN_GAME_ERROR`. -/
def PLAYER_NOT_IN_GAME_ERROR : String := "Player is not in game"

/-- Error string `NO_GAME_IN_PROGRESS_ERROR`. -/
def NO_GAME_IN_PROGRESS_ERROR : String := "No game in progress"

/-- The `board` getter: projects the stored model's move list; an
undefined game yields the fresh empty grid. -/
def ControllerState.board (s : ControllerState) : List (List TicTacToeCell) :=
  match s.model.game with
  | none => emptyBoard
  | some g => boardOf g.state.moves

/-- The `status` getter logic over a model: `WAITING_TO_START` when the
game is undefined, the game state status otherwise (lines 233-240). -/
def statusOfModel (m : GameAreaModel) : GameStatus :=
  match m.game with
  | none => GameStatus.WAITING_TO_START
  | some g => g.state.status

/-- The `status` getter. -/
def ControllerState.status (s : ControllerState) : GameStatus :=
  statusOfModel s.model

/-- The next mark to be played, from `whoseTurn` (lines 136-141):
`X` when no move has been made, otherwise the opposite of the last
move's mark. -/
def gamePieceToBePlayed (moves : List TicTacToeMove) : Piece :=
  match moves.getLast? with
  | none => Piece.X
  | some m => if m.gamePiece = Piece.X then Piece.O else Piece.X

/-- The roster scan of `whoseTurn` (lines 152-161): the first roster
entry whose id matches the assignment of the mark to be played. -/
def findTurnPlayer (roster : List PlayerController) (piece : Piece)
    (x o : Option String) : Option PlayerController :=
  roster.find? (fun ob =>
    decide ((piece = Piece.X ∧ x = some ob.id)
      ∨ (piece = Piece.O ∧ o = some ob.id)))

/-- Looking up the occupant holding a given assigned id in the roster. -/
def rosterLookup (roster : List PlayerController) (pid : Option String) :
    Option PlayerController :=
  roster.find? (fun ob => decide (pid = some ob.id))

/-- The `whoseTurn` getter (lines 131-163). -/
def ControllerState.whoseTurn (s : ControllerState) : Option PlayerController :=
  match s.model.game with
  | none => none
  | some g =>
    if g.state.status = GameStatus.IN_PROGRESS then
      findTurnPlayer s.observers (gamePieceToBePlayed g.state.moves)
        g.state.x g.state.o
    else none

/-- The `isOurTurn` getter (lines 170-192): the resolved player exists
and is reference-identical to the town controller's local viewer. -/
def ControllerState.isOurTurn (s : ControllerState) : Bool :=
  match s.whoseTurn with
  | none => false
  | some p => s.ourPlayer.ref == p.ref

/-- The `winner` getter (lines 109-125): undefined unless the game
exists with status OVER; otherwise the first roster entry whose id
matches the winner id. -/
def ControllerState.winner (s : ControllerState) : Option PlayerController :=
  match s.model.game with
  | none => none
  | some g =>
    if g.state.status = GameStatus.OVER then
      s.observers.find? (fun ob => decide (g.state.winner = some ob.id))
    else none

/-- The `gamePiece` getter (lines 214-227): the role held by the local
viewer, raising `PLAYER_NOT_IN_GAME_ERROR` when the viewer holds neither
role or there is no game. -/
def ControllerState.gamePiece (s : ControllerState) : Except String Piece :=
  match s.model.game with
  | none => Except.error PLAYER_NOT_IN_GAME_ERROR
  | some g =>
    if g.state.x = some s.ourPlayer.id then Except.ok Piece.X
    else if g.state.o = some s.ourPlayer.id then Except.ok Piece.O
    else Except.error PLAYER_NOT_IN_GAME_ERROR

/-! ## Turn resolver facts (C4) -/

/-- Moves alternate marks starting from `p`. -/
def alternatingFrom : Piece → List TicTacToeMove → Bool
  | _, [] => true
  | p, m :: ms => decide (m.gamePiece = p) && alternatingFrom (Piece.other p) ms

/-- Moves alternate marks starting with X: the server-side turn-order
invariant stated by the spec data model. -/
def alternatingMoves (ms : List TicTacToeMove) : Bool :=
  alternatingFrom Piece.X ms

theorem Piece.other_other (p : Piece) : p.other.other = p := by
  cases p <;> rfl

theorem alternatingFrom_getLast (p : Piece) (ms : List TicTacToeMove)
    (h : alternatingFrom p ms = true) (hne : ms ≠ []) :
    ∃ m, ms.getLast? = some m ∧
      m.gamePiece = (if ms.length % 2 = 1 then p else Piece.other p) := by
  induction ms generalizing p with
  | nil => exact absurd rfl hne
  | cons m t ih =>
    simp only [alternatingFrom, Bool.and_eq_true, decide_eq_true_eq] at h
    obtain ⟨hm, ht⟩ := h
    cases t with
    | nil => exact ⟨m, rfl, by simpa using hm⟩
    | cons m2 t2 =>
      obtain ⟨mlast, hlast, hpiece⟩ := ih (Piece.other p) ht (by simp)
      refine ⟨mlast, ?_, ?_⟩
      · rw [List.getLast?_cons_cons]
        exact hlast
      · simp only [List.length_cons] at hpiece ⊢
        by_cases hpar : t2.length % 2 = 0
        · rw [if_neg (by omega)]
          rw [if_pos (by omega)] at hpiece
          exact hpiece
        · rw [if_pos (by omega)]
          rw [if_neg (by omega)] at hpiece
          rw [Piece.other_other] at hpiece
          exact hpiece

theorem gamePieceToBePlayed_parity (ms : List TicTacToeMove)
    (h : alternatingMoves ms = true) :
    gamePieceToBePlayed ms
      = (if ms.length % 2 = 0 then Piece.X else Piece.O) := by
  cases ms with
  | nil => rfl
  | cons m t =>
    obtain ⟨mlast, hlast, hpiece⟩ :=
      alternatingFrom_getLast Piece.X (m :: t) h (by simp)
    have hgp : gamePieceToBePlayed (m :: t)
        = (if mlast.gamePiece = Piece.X then Piece.O else Piece.X) := by
      unfold gamePieceToBePlayed
      rw [hlast]
    rw [hgp]
    by_cases hpar : (m :: t).length % 2 = 0
    · rw [if_pos hpar]
      rw [if_neg (by omega)] at hpiece
      rw [hpiece]
      rfl
    · rw [if_neg hpar]
      rw [if_pos (by omega)] at hpiece
      rw [hpiece]
      rfl

theorem findTurnPlayer_X (roster : List PlayerController) (x o : Option String) :
    findTurnPlayer roster Piece.X x o = rosterLookup roster x := by
  unfold findTurnPlayer rosterLookup
  congr 1
  funext ob
  apply decide_eq_decide.mpr
  constructor
  · rintro (⟨_, hx⟩ | ⟨hp, _⟩)
    · exact hx
    · exact absurd hp (by decide)
  · intro hx
    exact Or.inl ⟨rfl, hx⟩

theorem findTurnPlayer_O (roster : List PlayerController) (x o : Option String) :
    findTurnPlayer roster Piece.O x o = rosterLookup roster o := by
  unfold findTurnPlayer rosterLookup
  congr 1
  funext ob
  apply decide_eq_decide.mpr
  constructor
  · rintro (⟨hp, _⟩ | ⟨_, ho⟩)
    · exact absurd hp (by decide)
    · exact ho
  · intro ho
    exact Or.inr ⟨rfl, ho⟩

/-- The roster is coherent with the local viewer: a roster entry is
reference-identical to the viewer exactly when it carries the viewer's
occupant id (object-graph well-formedness of the externally owned
roster). -/
def refsCoherent (s : ControllerState) : Prop :=
  ∀ ob ∈ s.observers, (ob.ref = s.ourPlayer.ref ↔ ob.id = s.ourPlayer.id)

instance (s : ControllerState) : Decidable (refsCoherent s) := by
  unfold refsCoherent
  infer_instance

/-- C4: for an in-progress snapshot whose moves alternate starting with X,
`whoseTurn` resolves the occupant assigned to X on even move counts and
the occupant assigned to O on odd move counts, and `isOurTurn` holds
exactly when the resolved occupant carries the local viewer's id (roster
coherence assumed); for a snapshot whose status is not IN_PROGRESS,
`whoseTurn` is undefined and `isOurTurn` is false regardless of moves. -/
theorem whoseTurn_parity_isOurTurn (s : ControllerState) (g : GameInstance)
    (hg : s.model.game = some g) :
    (g.state.status ≠ GameStatus.IN_PROGRESS →
      s.whoseTurn = none ∧ s.isOurTurn = false)
    ∧ (g.state.status = GameStatus.IN_PROGRESS →
        alternatingMoves g.state.moves = true →
        ((g.state.moves.length % 2 = 0 →
            s.whoseTurn = rosterLookup s.observers g.state.x)
          ∧ (g.state.moves.length % 2 = 1 →
            s.whoseTurn = rosterLookup s.observers g.state.o)))
    ∧ (refsCoherent s → ∀ p, s.whoseTurn = some p →
        (s.isOurTurn = true ↔ p.id = s.ourPlayer.id)) := by
  refine ⟨?_, ?_, ?_⟩
  · intro hst
    have hwt : s.whoseTurn = none := by
      unfold ControllerState.whoseTurn
      rw [hg]
      simp [hst]
    refine ⟨hwt, ?_⟩
    unfold ControllerState.isOurTurn
    rw [hwt]
  · intro hst halt
    have hwt : s.whoseTurn
        = findTurnPlayer s.observers (gamePieceToBePlayed g.state.moves)
            g.state.x g.state.o := by
      unfold ControllerState.whoseTurn
      rw [hg]
      simp [hst]
    constructor
    · intro hpar
      rw [hwt, gamePieceToBePlayed_parity _ halt, if_pos hpar]
      exact findTurnPlayer_X s.observers g.state.x g.state.o
    · intro hpar
      rw [hwt, gamePieceToBePlayed_parity _ halt, if_neg (by omega)]
      exact findTurnPlayer_O s.observers g.state.x g.state.o
  · intro hco p hp
    have hred : s.whoseTurn
        = (if g.state.status = GameStatus.IN_PROGRESS then
            findTurnPlayer s.observers (gamePieceToBePlayed g.state.moves)
              g.state.x g.state.o
          else none) := by
      unfold ControllerState.whoseTurn
      rw [hg]
    rw [hred] at hp
    have hmem : p ∈ s.observers := by
      by_cases hst : g.state.status = GameStatus.IN_PROGRESS
      · rw [if_pos hst] at hp
        exact List.mem_of_find?_eq_some hp
      · rw [if_neg hst] at hp
        exact absurd hp (by simp)
    have hio : s.isOurTurn = (s.ourPlayer.ref == p.ref) := by
      unfold ControllerState.isOurTurn
      rw [hred, hp]
    rw [hio]
    constructor
    · intro hb
      have heq : s.ourPlayer.ref = p.ref := by simpa using hb
      exact (hco p hmem).mp heq.symm
    · intro hid
      have h2 : s.ourPlayer.ref = p.ref := ((hco p hmem).mpr hid).symm
      simp [h2]

/-- A sample in-progress game: viewer "a" holds X, "b" holds O, no move
made yet. -/
def sampleGame : GameInstance :=
  { id := "g",
    players := ["a", "b"],
    state :=
      { status := GameStatus.IN_PROGRESS,
        x := some "a",
        o := some "b",
        moves := [],
        winner := none } }

/-- A sample controller state holding `sampleGame`, with both players on
the roster and the viewer being the X player. -/
def sampleState : ControllerState :=
  { model := { game := some sampleGame },
    observers := [{ ref := 0, id := "a" }, { ref := 1, id := "b" }],
    ourPlayer := { ref := 0, id := "a" },
    instanceID := some "g" }

/-- Witness for C4 at `sampleState`. -/
theorem whoseTurn_parity_isOurTurn_witness :
    sampleState.model.game = some sampleGame
    ∧ ((sampleGame.state.status ≠ GameStatus.IN_PROGRESS →
          sampleState.whoseTurn = none ∧ sampleState.isOurTurn = false)
      ∧ (sampleGame.state.status = GameStatus.IN_PROGRESS →
          alternatingMoves sampleGame.state.moves = true →
          ((sampleGame.state.moves.length % 2 = 0 →
              sampleState.whoseTurn
                = rosterLookup sampleState.observers sampleGame.state.x)
            ∧ (sampleGame.state.moves.length % 2 = 1 →
              sampleState.whoseTurn
                = rosterLookup sampleState.observers sampleGame.state.o)))
      ∧ (refsCoherent sampleState → ∀ p, sampleState.whoseTurn = some p →
          (sampleState.isOurTurn = true ↔ p.id = sampleState.ourPlayer.id))) :=
  ⟨rfl, whoseTurn_parity_isOurTurn sampleState sampleGame rfl⟩

/-- C10: the `winner` accessor returns undefined whenever there is no
game or the game's status is not OVER, even if the snapshot carries a
winner occupant id. -/
theorem winner_none_unless_over (s : ControllerState)
    (h : s.model.game = none
      ∨ ∃ g, s.model.game = some g ∧ g.state.status ≠ GameStatus.OVER) :
    s.winner = none := by
  unfold ControllerState.winner
  rcases h with hnone | ⟨g, hg, hst⟩
  · rw [hnone]
  · rw [hg]
    simp [hst]

/-- A sample game that is still in progress but whose snapshot already
carries a winner occupant id. -/
def sampleGameWinnerSet : GameInstance :=
  { id := "g",
    players := ["a", "b"],
    state :=
      { status := GameStatus.IN_PROGRESS,
        x := some "a",
        o := some "b",
        moves := [],
        winner := some "a" } }

/-- A sample controller state holding `sampleGameWinnerSet`. -/
def sampleStateWinnerSet : ControllerState :=
  { model := { game := some sampleGameWinnerSet },
    observers := [{ ref := 0, id := "a" }],
    ourPlayer := { ref := 0, id := "a" },
    instanceID := some "g" }

/-- Witness for C10 at `sampleStateWinnerSet`: status is IN_PROGRESS and
a winner id is present, yet `winner` is undefined. -/
theorem winner_none_unless_over_witness :
    (sampleStateWinnerSet.model.game = none
      ∨ ∃ g, sampleStateWinnerSet.model.game = some g
          ∧ g.state.status ≠ GameStatus.OVER)
    ∧ sampleStateWinnerSet.winner = none :=
  ⟨Or.inr ⟨sampleGameWinnerSet, rfl, by decide⟩,
    winner_none_unless_over sampleStateWinnerSet
      (Or.inr ⟨sampleGameWinnerSet, rfl, by decide⟩)⟩

/-! ## Snapshot application (`_updateFrom`, lines 265-284) -/

/-- Outcome of a finished game as seen by the local viewer. -/
inductive Outcome where
  | tie
  | won
  | lost
deriving DecidableEq, Repr

/-- A typed change event emitted by the controller while applying a
snapshot. -/
inductive AreaEvent where
  | gameUpdated
  | boardChanged (b : List (List TicTacToeCell))
  | turnChanged (ourTurn : Bool)
  | ended (o : Outcome)
deriving DecidableEq, Repr

def isBoardChangedEvent : AreaEvent → Bool
  | AreaEvent.boardChanged _ => true
  | _ => false

def isTurnChangedEvent : AreaEvent → Bool
  | AreaEvent.turnChanged _ => true
  | _ => false

def isGameUpdatedEvent : AreaEvent → Bool
  | AreaEvent.gameUpdated => true
  | _ => false

def isEndedEvent : AreaEvent → Bool
  | AreaEvent.ended _ => true
  | _ => false

/-- Modelled from the spec: the game-end outcome attached to the ended
event, as described in section 4.3 of the spec: `tie` when the new
snapshot carries no winner id, `won` when the winner id equals the local
viewer's id, `lost` otherwise. -/
def outcomeFor (m : GameAreaModel) (ourPlayer : PlayerController) : Outcome :=
  match m.game with
  | none => Outcome.tie
  | some g =>
    match g.state.winner with
    | none => Outcome.tie
    | some w => if w = ourPlayer.id then Outcome.won else Outcome.lost

/-- Modelled from the spec: the events emitted by the base
`GameAreaController._updateFrom`, whose source is not under `src/`.  Per
spec section 4.3 (corroborated by the test file, which observes a single
`gameUpdated` emission when an identical model is applied), the base
class always emits one generic updated event per call, and emits the
ended event with the viewer-relative outcome exactly when the status
transitions from non-OVER to OVER in this call. -/
def baseUpdateEvents (oldModel newModel : GameAreaModel)
    (ourPlayer : PlayerController) : List AreaEvent :=
  AreaEvent.gameUpdated ::
    (if statusOfModel oldModel ≠ GameStatus.OVER
        ∧ statusOfModel newModel = GameStatus.OVER then
      [AreaEvent.ended (outcomeFor newModel ourPlayer)]
    else [])

/-- The result of applying one snapshot: the new controller state, the
events emitted during the call in emission order, and whether the call
aborted with a TypeError (`crashed` - reading `gamePiece` of
`newMoves[newMoves.length - 1]` when the new move list is empty). -/
structure UpdateResult where
  state : ControllerState
  events : List AreaEvent
  crashed : Bool
deriving DecidableEq, Repr

/-- The move list of the stored snapshot: `oldGame.state?.moves ?? []`
(line 273). -/
def oldMovesOf (s : ControllerState) : List TicTacToeMove :=
  (s.model.game.map (fun gi => gi.state.moves)).getD []

/-- The emissions (and possible TypeError) the subclass `_updateFrom`
body adds after `super._updateFrom` (lines 269-283): nothing when the
new game is undefined or the move counts agree; otherwise a
`boardChanged` with the freshly projected board followed by a
`turnChanged` with the raw comparison of the last new move's mark
against the viewer's assignments - reading that last move throws when
the new move list is empty (the Boolean marks the crash, which happens
after `boardChanged` was already emitted). -/
def subclassEvents (s : ControllerState) (newModel : GameAreaModel) :
    List AreaEvent × Bool :=
  match newModel.game with
  | none => ([], false)
  | some g =>
    if g.state.moves.length = (oldMovesOf s).length then ([], false)
    else
      match g.state.moves.getLast? with
      | none => ([AreaEvent.boardChanged (boardOf g.state.moves)], true)
      | some lastm =>
        ([AreaEvent.boardChanged (boardOf g.state.moves),
          AreaEvent.turnChanged
            ((decide (lastm.gamePiece = Piece.X)
                && decide (g.state.o = some s.ourPlayer.id))
              || (decide (lastm.gamePiece = Piece.O)
                && decide (g.state.x = some s.ourPlayer.id)))], false)

/-- The whole `_updateFrom` call (lines 265-284): the spec-modelled base
emissions, then the subclass emissions; the stored model, roster and
instance id are replaced. -/
def ControllerState.updateFrom (s : ControllerState) (newModel : GameAreaModel)
    (newObservers : List PlayerController) : UpdateResult :=
  ⟨{ s with
      model := newModel,
      observers := newObservers,
      instanceID := newModel.game.map GameInstance.id },
    baseUpdateEvents s.model newModel s.ourPlayer ++ (subclassEvents s newModel).1,
    (subclassEvents s newModel).2⟩

/-- Applying a list of snapshots in order, collecting all events. -/
def runUpdates :
    ControllerState → List (GameAreaModel × List PlayerController) →
      ControllerState × List AreaEvent
  | s, [] => (s, [])
  | s, (m, obs) :: rest =>
    let r := s.updateFrom m obs
    let rec2 := runUpdates r.state rest
    (rec2.1, r.events ++ rec2.2)

/-- Number of non-OVER to OVER transitions along a status trace starting
from a given previous status. -/
def statusTransitions : GameStatus → List GameStatus → Nat
  | _, [] => 0
  | prev, st :: rest =>
    (if prev ≠ GameStatus.OVER ∧ st = GameStatus.OVER then 1 else 0)
      + statusTransitions st rest

/-! ## `makeMove` (lines 297-317) -/

/-- The move-intent command forwarded to
`townController.sendInteractableCommand`: a `GameMoveCommand` of type
`GameMove` carrying the stored instance id (empty string when absent)
and the move. -/
structure GameMoveCommand where
  commandType : String
  gameID : String
  move : TicTacToeMove
deriving DecidableEq, Repr

/-- `makeMove` (lines 297-317): throws `NO_GAME_IN_PROGRESS_ERROR` when
the game is undefined or not in progress; otherwise picks the mark by
comparing the id of `whoseTurn` against the X assignment (X on a match -
including the case where both are undefined - O otherwise) and returns
the command handed to the transport.  An `Except.error` return means the
error was thrown before any transport call; an `Except.ok` return is the
command sent. -/
def ControllerState.makeMove (s : ControllerState) (row col : Nat) :
    Except String GameMoveCommand :=
  match s.model.game with
  | none => Except.error NO_GAME_IN_PROGRESS_ERROR
  | some g =>
    if g.state.status ≠ GameStatus.IN_PROGRESS then
      Except.error NO_GAME_IN_PROGRESS_ERROR
    else
      let piece :=
        if s.whoseTurn.map PlayerController.id = g.state.x then Piece.X
        else Piece.O
      Except.ok
        { commandType := "GameMove",
          gameID := s.instanceID.getD "",
          move := { gamePiece := piece, row := row, col := col } }

/-! ## Event emission lemmas -/

theorem base_filter_ended (a b : GameAreaModel) (p : PlayerController) :
    (baseUpdateEvents a b p).filter isEndedEvent
      = (if statusOfModel a ≠ GameStatus.OVER
            ∧ statusOfModel b = GameStatus.OVER then
          [AreaEvent.ended (outcomeFor b p)]
        else []) := by
  unfold baseUpdateEvents
  split <;> rfl

theorem base_countP_gameUpdated (a b : GameAreaModel) (p : PlayerController) :
    (baseUpdateEvents a b p).countP isGameUpdatedEvent = 1 := by
  unfold baseUpdateEvents
  split <;> rfl

theorem base_countP_boardChanged (a b : GameAreaModel) (p : PlayerController) :
    (baseUpdateEvents a b p).countP isBoardChangedEvent = 0 := by
  unfold baseUpdateEvents
  split <;> rfl

theorem base_countP_turnChanged (a b : GameAreaModel) (p : PlayerController) :
    (baseUpdateEvents a b p).countP isTurnChangedEvent = 0 := by
  unfold baseUpdateEvents
  split <;> rfl

theorem base_any_boardChanged (a b : GameAreaModel) (p : PlayerController) :
    (baseUpdateEvents a b p).any isBoardChangedEvent = false := by
  unfold baseUpdateEvents
  split <;> rfl

theorem subclass_events_flags (s : ControllerState) (m : GameAreaModel) :
    ∀ e ∈ (subclassEvents s m).1,
      isEndedEvent e = false ∧ isGameUpdatedEvent e = false := by
  unfold subclassEvents
  split
  · simp
  · split
    · simp
    · split
      · intro e he
        simp only [List.mem_singleton] at he
        subst he
        exact ⟨rfl, rfl⟩
      · intro e he
        simp only [List.mem_cons, List.mem_singleton, List.not_mem_nil,
          or_false] at he
        rcases he with he | he <;> subst he <;> exact ⟨rfl, rfl⟩

theorem updateFrom_filter_ended (s : ControllerState) (m : GameAreaModel)
    (obs : List PlayerController) :
    (s.updateFrom m obs).events.filter isEndedEvent
      = (if statusOfModel s.model ≠ GameStatus.OVER
            ∧ statusOfModel m = GameStatus.OVER then
          [AreaEvent.ended (outcomeFor m s.ourPlayer)]
        else []) := by
  show (baseUpdateEvents s.model m s.ourPlayer
      ++ (subclassEvents s m).1).filter isEndedEvent = _
  rw [List.filter_append]
  have h2 : (subclassEvents s m).1.filter isEndedEvent = [] := by
    apply List.filter_eq_nil_iff.mpr
    intro e he
    simp [(subclass_events_flags s m e he).1]
  rw [h2, base_filter_ended, List.append_nil]

theorem updateFrom_gameUpdated_once (s : ControllerState) (m : GameAreaModel)
    (obs : List PlayerController) :
    (s.updateFrom m obs).events.countP isGameUpdatedEvent = 1 := by
  show (baseUpdateEvents s.model m s.ourPlayer
      ++ (subclassEvents s m).1).countP isGameUpdatedEvent = 1
  rw [List.countP_append]
  have hs : (subclassEvents s m).1.countP isGameUpdatedEvent = 0 := by
    apply List.countP_eq_zero.mpr
    intro e he
    simp [(subclass_events_flags s m e he).2]
  rw [hs, base_countP_gameUpdated]

theorem updateFrom_state_model (s : ControllerState) (m : GameAreaModel)
    (obs : List PlayerController) : (s.updateFrom m obs).state.model = m := rfl

theorem subclassEvents_of_model_eq (s : ControllerState) (m : GameAreaModel)
    (h : s.model = m) : subclassEvents s m = ([], false) := by
  subst h
  unfold subclassEvents oldMovesOf
  cases hm : s.model.game with
  | none => rfl
  | some g => simp

/-- C3: across any sequence of applied snapshots, the ended event is
emitted exactly once per transition of the status from non-OVER to OVER,
with the outcome determined by the new snapshot's winner id relative to
the local viewer (see `outcomeFor`), and is never re-emitted while the
status stays OVER: per call, the ended events are exactly one
transition-triggered event, and over a run their count equals the number
of transitions in the status trace. -/
theorem ended_once_per_transition :
    (∀ (s : ControllerState) (m : GameAreaModel) (obs : List PlayerController),
      (s.updateFrom m obs).events.filter isEndedEvent
        = (if statusOfModel s.model ≠ GameStatus.OVER
              ∧ statusOfModel m = GameStatus.OVER then
            [AreaEvent.ended (outcomeFor m s.ourPlayer)]
          else []))
    ∧ (∀ (s : ControllerState)
        (ms : List (GameAreaModel × List PlayerController)),
      (runUpdates s ms).2.countP isEndedEvent
        = statusTransitions (statusOfModel s.model)
            (ms.map (fun pr => statusOfModel pr.1))) := by
  constructor
  · exact updateFrom_filter_ended
  · intro s ms
    induction ms generalizing s with
    | nil => rfl
    | cons pr rest ih =>
      obtain ⟨m, obs⟩ := pr
      show ((s.updateFrom m obs).events
          ++ (runUpdates (s.updateFrom m obs).state rest).2).countP isEndedEvent
        = _
      rw [List.countP_append]
      have h1 : (s.updateFrom m obs).events.countP isEndedEvent
          = (if statusOfModel s.model ≠ GameStatus.OVER
                ∧ statusOfModel m = GameStatus.OVER then 1 else 0) := by
        rw [List.countP_eq_length_filter, updateFrom_filter_ended]
        split <;> rfl
      rw [h1, ih (s.updateFrom m obs).state]
      rw [updateFrom_state_model]
      rfl

/-- C9: applying one identical snapshot twice in succession emits the
generic updated event once on each application, and emits neither a
boardChanged nor a turnChanged event on the second application. -/
theorem identical_reapply_no_fine_events (s : ControllerState)
    (m : GameAreaModel) (obs1 obs2 : List PlayerController) :
    ((s.updateFrom m obs1).events.countP isGameUpdatedEvent = 1)
    ∧ (((s.updateFrom m obs1).state.updateFrom m obs2).events.countP
        isGameUpdatedEvent = 1)
    ∧ (((s.updateFrom m obs1).state.updateFrom m obs2).events.countP
        isBoardChangedEvent = 0)
    ∧ (((s.updateFrom m obs1).state.updateFrom m obs2).events.countP
        isTurnChangedEvent = 0) := by
  have hsub : subclassEvents (s.updateFrom m obs1).state m = ([], false) :=
    subclassEvents_of_model_eq _ _ (updateFrom_state_model s m obs1)
  refine ⟨updateFrom_gameUpdated_once s m obs1,
    updateFrom_gameUpdated_once _ m obs2, ?_, ?_⟩
  · show (baseUpdateEvents (s.updateFrom m obs1).state.model m
        (s.updateFrom m obs1).state.ourPlayer
      ++ (subclassEvents (s.updateFrom m obs1).state m).1).countP
        isBoardChangedEvent = 0
    rw [List.countP_append, hsub, base_countP_boardChanged]
    rfl
  · show (baseUpdateEvents (s.updateFrom m obs1).state.model m
        (s.updateFrom m obs1).state.ourPlayer
      ++ (subclassEvents (s.updateFrom m obs1).state m).1).countP
        isTurnChangedEvent = 0
    rw [List.countP_append, hsub, base_countP_turnChanged]
    rfl

/-! ## Board change detection (C1) -/

theorem board_getter_eq (s : ControllerState) :
    s.board = boardOf (oldMovesOf s) := by
  unfold ControllerState.board oldMovesOf
  cases hg : s.model.game with
  | none => rfl
  | some g => rfl

theorem boardOf_ne_iff (old new : List TicTacToeMove)
    (happ : ∃ t, old ++ t = new) (hR : movesInRange new)
    (hD : cellsDistinct new) :
    (boardOf new ≠ boardOf old ↔ new.length ≠ old.length) := by
  obtain ⟨t, ht⟩ := happ
  constructor
  · intro hne hlen
    apply hne
    have htlen : t.length = 0 := by
      have hcong := congrArg List.length ht
      simp only [List.length_append] at hcong
      omega
    have hte : t = [] := List.length_eq_zero.mp htlen
    rw [hte] at ht
    simp only [List.append_nil] at ht
    rw [ht]
  · intro hlen hbe
    have hsub : old.Sublist new := by
      rw [← ht]
      exact List.sublist_append_left old t
    have hRold : movesInRange old := fun mm hm => hR mm (hsub.subset hm)
    have hDold : cellsDistinct old := List.Pairwise.sublist hsub hD
    apply hlen
    rw [← countFilled_boardOf new hR hD, ← countFilled_boardOf old hRold hDold,
      hbe]

theorem subclass_any_boardChanged (s : ControllerState) (m : GameAreaModel)
    (g1 : GameInstance) (h1 : m.game = some g1) :
    ((subclassEvents s m).1.any isBoardChangedEvent = true)
      ↔ g1.state.moves.length ≠ (oldMovesOf s).length := by
  have hs : subclassEvents s m
      = (if g1.state.moves.length = (oldMovesOf s).length then
          (([] : List AreaEvent), false)
        else
          match g1.state.moves.getLast? with
          | none => ([AreaEvent.boardChanged (boardOf g1.state.moves)], true)
          | some lastm =>
            ([AreaEvent.boardChanged (boardOf g1.state.moves),
              AreaEvent.turnChanged
                ((decide (lastm.gamePiece = Piece.X)
                    && decide (g1.state.o = some s.ourPlayer.id))
                  || (decide (lastm.gamePiece = Piece.O)
                    && decide (g1.state.x = some s.ourPlayer.id)))],
              false)) := by
    unfold subclassEvents
    rw [h1]
  rw [hs]
  by_cases hlen : g1.state.moves.length = (oldMovesOf s).length
  · rw [if_pos hlen]
    simp [hlen]
  · rw [if_neg hlen]
    cases hlast : g1.state.moves.getLast? with
    | none => simp [hlen, isBoardChangedEvent]
    | some lastm => simp [hlen, isBoardChangedEvent]

theorem updateFrom_any_boardChanged (s : ControllerState) (m : GameAreaModel)
    (obs : List PlayerController) (g1 : GameInstance) (h1 : m.game = some g1) :
    ((s.updateFrom m obs).events.any isBoardChangedEvent = true)
      ↔ g1.state.moves.length ≠ (oldMovesOf s).length := by
  show ((baseUpdateEvents s.model m s.ourPlayer
      ++ (subclassEvents s m).1).any isBoardChangedEvent = true) ↔ _
  rw [List.any_append, base_any_boardChanged]
  simp only [Bool.false_or]
  exact subclass_any_boardChanged s m g1 h1

/-- C1: when a new snapshot with a present game extends the stored moves
(append-only) under well-formed cells, `_updateFrom` emits a boardChanged
event iff the board projected from the new snapshot differs from the
board projected from the stored snapshot, which holds iff the two move
counts differ; the first conjunct records that the exposed `board` getter
is that projection of the stored moves. -/
theorem boardChanged_iff_board_differs (s : ControllerState)
    (m : GameAreaModel) (obs : List PlayerController) (g1 : GameInstance)
    (h1 : m.game = some g1)
    (happ : ∃ t, oldMovesOf s ++ t = g1.state.moves)
    (hR : movesInRange g1.state.moves) (hD : cellsDistinct g1.state.moves) :
    s.board = boardOf (oldMovesOf s)
    ∧ ((s.updateFrom m obs).events.any isBoardChangedEvent = true
        ↔ boardOf g1.state.moves ≠ boardOf (oldMovesOf s))
    ∧ (boardOf g1.state.moves ≠ boardOf (oldMovesOf s)
        ↔ g1.state.moves.length ≠ (oldMovesOf s).length) := by
  have hbne := boardOf_ne_iff (oldMovesOf s) g1.state.moves happ hR hD
  refine ⟨board_getter_eq s, ?_, hbne⟩
  rw [updateFrom_any_boardChanged s m obs g1 h1]
  exact hbne.symm

/-- A stored one-move snapshot used by the C1 witness. -/
def growGame0 : GameInstance :=
  { id := "g",
    players := ["a", "b"],
    state :=
      { status := GameStatus.IN_PROGRESS,
        x := some "a",
        o := some "b",
        moves := [{ gamePiece := Piece.X, row := 0, col := 0 }],
        winner := none } }

/-- A two-move extension of `growGame0` used by the C1 witness. -/
def growGame1 : GameInstance :=
  { id := "g",
    players := ["a", "b"],
    state :=
      { status := GameStatus.IN_PROGRESS,
        x := some "a",
        o := some "b",
        moves := [{ gamePiece := Piece.X, row := 0, col := 0 },
          { gamePiece := Piece.O, row := 1, col := 1 }],
        winner := none } }

/-- The controller state storing `growGame0`. -/
def growState : ControllerState :=
  { model := { game := some growGame0 },
    observers := [{ ref := 0, id := "a" }, { ref := 1, id := "b" }],
    ourPlayer := { ref := 0, id := "a" },
    instanceID := some "g" }

/-- Witness for C1: applying the two-move extension to the one-move
state. -/
theorem boardChanged_iff_board_differs_witness :
    (GameAreaModel.mk (some growGame1)).game = some growGame1
    ∧ (∃ t, oldMovesOf growState ++ t = growGame1.state.moves)
    ∧ movesInRange growGame1.state.moves
    ∧ cellsDistinct growGame1.state.moves
    ∧ (growState.board = boardOf (oldMovesOf growState)
      ∧ ((growState.updateFrom (GameAreaModel.mk (some growGame1))
            growState.observers).events.any isBoardChangedEvent = true
          ↔ boardOf growGame1.state.moves ≠ boardOf (oldMovesOf growState))
      ∧ (boardOf growGame1.state.moves ≠ boardOf (oldMovesOf growState)
          ↔ growGame1.state.moves.length ≠ (oldMovesOf growState).length)) :=
  ⟨rfl, ⟨[{ gamePiece := Piece.O, row := 1, col := 1 }], rfl⟩,
    by decide, by decide,
    boardChanged_iff_board_differs growState (GameAreaModel.mk (some growGame1))
      growState.observers growGame1 rfl
      ⟨[{ gamePiece := Piece.O, row := 1, col := 1 }], rfl⟩
      (by decide) (by decide)⟩

/-! ## Local move validation (C5, C6) and spurious turn events (C2) -/

/-- C5: whenever there is no game or the game's status is not
IN_PROGRESS, `makeMove` throws `NO_GAME_IN_PROGRESS_ERROR` synchronously;
the error return means no command was ever handed to the transport. -/
theorem makeMove_rejects_when_not_in_progress (s : ControllerState)
    (row col : Nat)
    (h : s.model.game = none
      ∨ ∃ g, s.model.game = some g
          ∧ g.state.status ≠ GameStatus.IN_PROGRESS) :
    s.makeMove row col = Except.error NO_GAME_IN_PROGRESS_ERROR := by
  unfold ControllerState.makeMove
  rcases h with hnone | ⟨g, hg, hst⟩
  · rw [hnone]
  · rw [hg]
    simp [hst]

/-- A finished game used by the C5 witness. -/
def overGame : GameInstance :=
  { id := "g",
    players := ["a", "b"],
    state :=
      { status := GameStatus.OVER,
        x := some "a",
        o := some "b",
        moves := [],
        winner := some "a" } }

/-- The controller state storing `overGame`. -/
def overState : ControllerState :=
  { model := { game := some overGame },
    observers := [{ ref := 0, id := "a" }, { ref := 1, id := "b" }],
    ourPlayer := { ref := 0, id := "a" },
    instanceID := some "g" }

/-- Witness for C5 on a finished game. -/
theorem makeMove_rejects_when_not_in_progress_witness :
    (overState.model.game = none
      ∨ ∃ g, overState.model.game = some g
          ∧ g.state.status ≠ GameStatus.IN_PROGRESS)
    ∧ overState.makeMove 0 0 = Except.error NO_GAME_IN_PROGRESS_ERROR :=
  ⟨Or.inr ⟨overGame, rfl, by decide⟩,
    makeMove_rejects_when_not_in_progress overState 0 0
      (Or.inr ⟨overGame, rfl, by decide⟩)⟩

/-- An in-progress game between "a" (X) and "b" (O) while the local
viewer is the uninvolved occupant "c": used by the C2 and C6
counterexamples. -/
def outsiderGame0 : GameInstance :=
  { id := "g",
    players := ["a", "b"],
    state :=
      { status := GameStatus.IN_PROGRESS,
        x := some "a",
        o := some "b",
        moves := [],
        winner := none } }

/-- `outsiderGame0` after X moved at the top-left cell. -/
def outsiderGame1 : GameInstance :=
  { id := "g",
    players := ["a", "b"],
    state :=
      { status := GameStatus.IN_PROGRESS,
        x := some "a",
        o := some "b",
        moves := [{ gamePiece := Piece.X, row := 0, col := 0 }],
        winner := none } }

/-- The controller state of the uninvolved viewer "c" storing
`outsiderGame0`. -/
def outsiderState : ControllerState :=
  { model := { game := some outsiderGame0 },
    observers := [{ ref := 0, id := "a" }, { ref := 1, id := "b" }],
    ourPlayer := { ref := 2, id := "c" },
    instanceID := some "g" }

/-- C2 as stated fails on the code: applying a one-move extension for an
uninvolved viewer leaves the local-turn boolean at `false` before and
after the call, yet `_updateFrom` emits a turnChanged event (it emits
one whenever the move counts differ, regardless of whether the computed
local-turn boolean changed). -/
theorem turnChanged_emitted_without_turn_change :
    outsiderState.isOurTurn = false
    ∧ (outsiderState.updateFrom { game := some outsiderGame1 }
        outsiderState.observers).state.isOurTurn = false
    ∧ (outsiderState.updateFrom { game := some outsiderGame1 }
        outsiderState.observers).events.countP isTurnChangedEvent = 1 := by
  decide

/-- C6 as stated fails on the code: with the viewer "c" holding neither
role in an in-progress game (the code's own `gamePiece` getter raises
the player-not-in-game error for this state), `makeMove` does not throw;
it forwards a command whose mark is the next mover's mark X, not a role
of the viewer. -/
theorem makeMove_skips_player_check :
    outsiderState.gamePiece = Except.error PLAYER_NOT_IN_GAME_ERROR
    ∧ outsiderState.makeMove 0 0
        = Except.ok
            { commandType := "GameMove",
              gameID := "g",
              move := { gamePiece := Piece.X, row := 0, col := 0 } } :=
  ⟨rfl, rfl⟩

/-! ## Leaderboard aggregation (Leaderboard.tsx lines 18-68) -/

/-- `GameResult` from `CoveyTownSocket`: `scores` is the entry list of
the JS scores object in insertion order (`Object.entries`), mapping each
participant name to a numeric score; object keys are distinct. -/
structure GameResult where
  gameID : String
  scores : List (String × Nat)
deriving DecidableEq, Repr

/-- A leaderboard record: wins, losses, ties. -/
abbrev Record3 := Nat × Nat × Nat

/-- `playerResults.get(k)` on the JS `Map` represented as an ordered
association list. -/
def mapGetLb (m : List (String × Record3)) (k : String) : Option Record3 :=
  (m.find? (fun e => decide (e.1 = k))).map (fun e => e.2)

/-- `playerResults.set(k, v)`: update in place when the key is present,
append otherwise - the JS `Map` insertion-order semantics. -/
def mapSetLb (m : List (String × Record3)) (k : String) (v : Record3) :
    List (String × Record3) :=
  if m.any (fun e => decide (e.1 = k)) then
    m.map (fun e => if e.1 = k then (k, v) else e)
  else m ++ [(k, v)]

/-- `GameEndStatus` of Leaderboard.tsx: whether player one won, lost or
tied. -/
inductive GameEndStatus where
  | WIN
  | LOSS
  | TIE
deriving DecidableEq, Repr

/-- `getGameEndResult` (lines 21-30): unequal scores mean a win for
player one when their score is truthy, a loss otherwise; equal scores
mean a tie.  Fewer than two entries would throw in JS; the claims only
range over two-participant results. -/
def getGameEndResult (scores : List (String × Nat)) : GameEndStatus :=
  match scores with
  | (_, s1) :: (_, s2) :: _ =>
    if s1 ≠ s2 then
      (if s1 ≠ 0 then GameEndStatus.WIN else GameEndStatus.LOSS)
    else GameEndStatus.TIE
  | _ => GameEndStatus.TIE

/-- `calculatePlayerRecordTuple` (lines 33-55): bump the player's
current record (default all-zero) according to the game result and
which participant they are. -/
def calculatePlayerRecordTuple (m : List (String × Record3))
    (playerUsername : String) (gameResult : GameEndStatus)
    (isPlayerTwo : Bool) : Record3 :=
  match gameResult, isPlayerTwo with
  | GameEndStatus.WIN, false =>
    (((mapGetLb m playerUsername).getD (0, 0, 0)).1 + 1,
      ((mapGetLb m playerUsername).getD (0, 0, 0)).2.1,
      ((mapGetLb m playerUsername).getD (0, 0, 0)).2.2)
  | GameEndStatus.WIN, true =>
    (((mapGetLb m playerUsername).getD (0, 0, 0)).1,
      ((mapGetLb m playerUsername).getD (0, 0, 0)).2.1 + 1,
      ((mapGetLb m playerUsername).getD (0, 0, 0)).2.2)
  | GameEndStatus.LOSS, false =>
    (((mapGetLb m playerUsername).getD (0, 0, 0)).1,
      ((mapGetLb m playerUsername).getD (0, 0, 0)).2.1 + 1,
      ((mapGetLb m playerUsername).getD (0, 0, 0)).2.2)
  | GameEndStatus.LOSS, true =>
    (((mapGetLb m playerUsername).getD (0, 0, 0)).1 + 1,
      ((mapGetLb m playerUsername).getD (0, 0, 0)).2.1,
      ((mapGetLb m playerUsername).getD (0, 0, 0)).2.2)
  | GameEndStatus.TIE, _ =>
    (((mapGetLb m playerUsername).getD (0, 0, 0)).1,
      ((mapGetLb m playerUsername).getD (0, 0, 0)).2.1,
      ((mapGetLb m playerUsername).getD (0, 0, 0)).2.2 + 1)

/-- One iteration of the `results.map(...)` loop (lines 57-66): both
tuples are computed against the incoming map (the keys of a scores
object are distinct, so the in-place JS mutations of the two tuples do
not interact), then both keys are set in order. -/
def processResult (m : List (String × Record3)) (r : GameResult) :
    List (String × Record3) :=
  match r.scores with
  | (n1, _) :: (n2, _) :: _ =>
    mapSetLb
      (mapSetLb m n1
        (calculatePlayerRecordTuple m n1 (getGameEndResult r.scores) false))
      n2 (calculatePlayerRecordTuple m n2 (getGameEndResult r.scores) true)
  | _ => m

/-- The accumulated map over all results, in insertion order
(`Array.from(playerResults)`). -/
def leaderboardAggregate (results : List GameResult) :
    List (String × Record3) :=
  results.foldl processResult []

/-- Stable descending insertion by wins. -/
def insertByWinsDesc (x : String × Record3) :
    List (String × Record3) → List (String × Record3)
  | [] => [x]
  | y :: ys =>
    if y.2.1 > x.2.1 then y :: insertByWinsDesc x ys
    else x :: y :: ys

/-- The `sort((r1, r2) => r2[1][0] - r1[1][0])` call (line 68):
`Array.prototype.sort` is stable, and a stable sort's output is uniquely
determined by the comparator, so the stable descending insertion sort
below computes the same list. -/
def sortByWinsDesc (l : List (String × Record3)) :
    List (String × Record3) :=
  l.foldr insertByWinsDesc []

/-- The rendered leaderboard rows: the accumulated records sorted by
wins, descending. -/
def leaderboard (results : List GameResult) : List (String × Record3) :=
  sortByWinsDesc (leaderboardAggregate results)

/-! ### Specification-side counting (the spec's words, for C8) -/

/-- The result credits `name` a win: `name` is the participant with
score 1 and the other participant has score 0. -/
def winsInResult (name : String) (r : GameResult) : Bool :=
  match r.scores with
  | [(n1, s1), (n2, s2)] =>
    (decide (name = n1) && decide (s1 = 1) && decide (s2 = 0))
      || (decide (name = n2) && decide (s2 = 1) && decide (s1 = 0))
  | _ => false

/-- The result credits `name` a loss: the other participant has score 1
while `name` has score 0. -/
def lossesInResult (name : String) (r : GameResult) : Bool :=
  match r.scores with
  | [(n1, s1), (n2, s2)] =>
    (decide (name = n1) && decide (s1 = 0) && decide (s2 = 1))
      || (decide (name = n2) && decide (s2 = 0) && decide (s1 = 1))
  | _ => false

/-- The result credits `name` a tie: `name` participates and the two
scores are equal. -/
def tiesInResult (name : String) (r : GameResult) : Bool :=
  match r.scores with
  | [(n1, s1), (n2, s2)] =>
    (decide (name = n1) || decide (name = n2)) && decide (s1 = s2)
  | _ => false

/-- Number of results crediting `name` a win. -/
def specWins (name : String) (rs : List GameResult) : Nat :=
  rs.countP (winsInResult name)

/-- Number of results crediting `name` a loss. -/
def specLosses (name : String) (rs : List GameResult) : Nat :=
  rs.countP (lossesInResult name)

/-- Number of results crediting `name` a tie. -/
def specTies (name : String) (rs : List GameResult) : Nat :=
  rs.countP (tiesInResult name)

/-- The accumulated spec-side record of `name` over a result list. -/
def creditsOf (name : String) (rs : List GameResult) : Record3 :=
  (specWins name rs, specLosses name rs, specTies name rs)

/-- `name` appears among the participants of `r`. -/
def participates (name : String) (r : GameResult) : Bool :=
  r.scores.any (fun e => decide (e.1 = name))

/-- A result in the claim's domain: exactly two participants, distinct
names, scores 0 or 1. -/
def wellFormedResult (r : GameResult) : Bool :=
  match r.scores with
  | [(n1, s1), (n2, s2)] =>
    decide (n1 ≠ n2) && decide (s1 ≤ 1) && decide (s2 ≤ 1)
  | _ => false

/-- The credit of a single result to `name`. -/
def creditOf (name : String) (r : GameResult) : Record3 :=
  ((if winsInResult name r then 1 else 0),
    (if lossesInResult name r then 1 else 0),
    (if tiesInResult name r then 1 else 0))

/-- Componentwise addition of records. -/
def addR3 (a b : Record3) : Record3 :=
  (a.1 + b.1, a.2.1 + b.2.1, a.2.2 + b.2.2)


theorem mapGetLb_cons_eq (e : String × Record3) (t : List (String × Record3))
    (k : String) (h : e.1 = k) : mapGetLb (e :: t) k = some e.2 := by
  unfold mapGetLb
  rw [List.find?_cons_of_pos _ (by simp [h])]
  rfl

theorem mapGetLb_cons_ne (e : String × Record3) (t : List (String × Record3))
    (k : String) (h : ¬e.1 = k) : mapGetLb (e :: t) k = mapGetLb t k := by
  unfold mapGetLb
  rw [List.find?_cons_of_neg _ (by simp [h])]

theorem mapGetLb_map_update (m : List (String × Record3)) (k : String)
    (v : Record3) (hany : m.any (fun e => decide (e.1 = k)) = true) :
    mapGetLb (m.map (fun e => if e.1 = k then (k, v) else e)) k = some v := by
  induction m with
  | nil => simp at hany
  | cons e t ih =>
    rw [List.map_cons]
    by_cases hek : e.1 = k
    · rw [if_pos hek, mapGetLb_cons_eq _ _ _ (by rfl)]
    · rw [if_neg hek, mapGetLb_cons_ne _ _ _ hek]
      apply ih
      simp only [List.any_cons, Bool.or_eq_true] at hany
      rcases hany with hc | hc
      · exact absurd (by simpa using hc) hek
      · exact hc

theorem mapGetLb_append_absent (m : List (String × Record3)) (k : String)
    (v : Record3) (hany : m.any (fun e => decide (e.1 = k)) = false) :
    mapGetLb (m ++ [(k, v)]) k = some v := by
  induction m with
  | nil => rw [List.nil_append, mapGetLb_cons_eq _ _ _ (by rfl)]
  | cons e t ih =>
    simp only [List.any_cons, Bool.or_eq_false_iff] at hany
    rw [List.cons_append, mapGetLb_cons_ne _ _ _ (by simpa using hany.1)]
    exact ih hany.2

theorem mapGetLb_mapSetLb_same (m : List (String × Record3)) (k : String)
    (v : Record3) : mapGetLb (mapSetLb m k v) k = some v := by
  unfold mapSetLb
  cases hany : m.any (fun e => decide (e.1 = k)) with
  | true =>
    rw [if_pos rfl]
    exact mapGetLb_map_update m k v hany
  | false =>
    rw [if_neg (by simp)]
    exact mapGetLb_append_absent m k v hany

theorem mapGetLb_map_update_ne (m : List (String × Record3)) (k k2 : String)
    (v : Record3) (hk : k ≠ k2) :
    mapGetLb (m.map (fun e => if e.1 = k then (k, v) else e)) k2
      = mapGetLb m k2 := by
  induction m with
  | nil => rfl
  | cons e t ih =>
    rw [List.map_cons]
    by_cases hek : e.1 = k
    · rw [if_pos hek, mapGetLb_cons_ne _ _ _ (by simpa using hk),
        mapGetLb_cons_ne _ _ _ (by rw [hek]; exact hk)]
      exact ih
    · by_cases hek2 : e.1 = k2
      · rw [if_neg hek, mapGetLb_cons_eq _ _ _ hek2, mapGetLb_cons_eq _ _ _ hek2]
      · rw [if_neg hek, mapGetLb_cons_ne _ _ _ hek2, mapGetLb_cons_ne _ _ _ hek2]
        exact ih

theorem mapGetLb_append_ne (m : List (String × Record3)) (k k2 : String)
    (v : Record3) (hk : k ≠ k2) :
    mapGetLb (m ++ [(k, v)]) k2 = mapGetLb m k2 := by
  induction m with
  | nil =>
    rw [List.nil_append, mapGetLb_cons_ne _ _ _ (by simpa using hk)]
  | cons e t ih =>
    by_cases hek2 : e.1 = k2
    · rw [List.cons_append, mapGetLb_cons_eq _ _ _ hek2,
        mapGetLb_cons_eq _ _ _ hek2]
    · rw [List.cons_append, mapGetLb_cons_ne _ _ _ hek2,
        mapGetLb_cons_ne _ _ _ hek2]
      exact ih

theorem mapGetLb_mapSetLb_ne (m : List (String × Record3)) (k k2 : String)
    (v : Record3) (hk : k ≠ k2) :
    mapGetLb (mapSetLb m k v) k2 = mapGetLb m k2 := by
  unfold mapSetLb
  by_cases hany : m.any (fun e => decide (e.1 = k)) = true
  · rw [if_pos hany]
    exact mapGetLb_map_update_ne m k k2 v hk
  · rw [if_neg hany]
    exact mapGetLb_append_ne m k k2 v hk

/-- The bump `calculatePlayerRecordTuple` applies, by case. -/
def deltaOf : GameEndStatus → Bool → Record3
  | GameEndStatus.WIN, false => (1, 0, 0)
  | GameEndStatus.WIN, true => (0, 1, 0)
  | GameEndStatus.LOSS, false => (0, 1, 0)
  | GameEndStatus.LOSS, true => (1, 0, 0)
  | GameEndStatus.TIE, _ => (0, 0, 1)

theorem calc_eq_addR3 (m : List (String × Record3)) (name : String)
    (ger : GameEndStatus) (isP2 : Bool) :
    calculatePlayerRecordTuple m name ger isP2
      = addR3 ((mapGetLb m name).getD (0, 0, 0)) (deltaOf ger isP2) := by
  cases ger <;> cases isP2 <;>
    simp [calculatePlayerRecordTuple, deltaOf, addR3]

theorem addR3_zero (v : Record3) : addR3 v (0, 0, 0) = v := by
  simp [addR3]

theorem zero_addR3 (v : Record3) : addR3 (0, 0, 0) v = v := by
  simp [addR3]

theorem addR3_assoc (a b c : Record3) :
    addR3 (addR3 a b) c = addR3 a (addR3 b c) := by
  simp [addR3, Nat.add_assoc]

theorem creditsOf_cons (name : String) (r : GameResult)
    (rest : List GameResult) :
    creditsOf name (r :: rest) = addR3 (creditOf name r) (creditsOf name rest) := by
  simp only [creditsOf, specWins, specLosses, specTies, creditOf, addR3,
    List.countP_cons, Prod.mk.injEq]
  refine ⟨?_, ?_, ?_⟩ <;> exact Nat.add_comm _ _

theorem wellFormed_destruct (r : GameResult)
    (hwf : wellFormedResult r = true) :
    ∃ n1 s1 n2 s2, r.scores = [(n1, s1), (n2, s2)]
      ∧ n1 ≠ n2 ∧ s1 ≤ 1 ∧ s2 ≤ 1 := by
  unfold wellFormedResult at hwf
  rcases hscore : r.scores with _ | ⟨⟨n1, s1⟩, _ | ⟨⟨n2, s2⟩, _ | ⟨a, t⟩⟩⟩ <;>
    rw [hscore] at hwf
  · simp at hwf
  · simp at hwf
  · simp only [Bool.and_eq_true, decide_eq_true_eq] at hwf
    exact ⟨n1, s1, n2, s2, rfl, hwf.1.1, hwf.1.2, hwf.2⟩
  · simp at hwf

theorem creditOf_p1 (r : GameResult) (n1 n2 : String) (s1 s2 : Nat)
    (hs : r.scores = [(n1, s1), (n2, s2)]) (hne : n1 ≠ n2)
    (h1 : s1 ≤ 1) (h2 : s2 ≤ 1) :
    creditOf n1 r = deltaOf (getGameEndResult r.scores) false := by
  unfold creditOf winsInResult lossesInResult tiesInResult getGameEndResult
  rw [hs]
  interval_cases s1 <;> interval_cases s2 <;> simp [deltaOf, hne]

theorem creditOf_p2 (r : GameResult) (n1 n2 : String) (s1 s2 : Nat)
    (hs : r.scores = [(n1, s1), (n2, s2)]) (hne : n1 ≠ n2)
    (h1 : s1 ≤ 1) (h2 : s2 ≤ 1) :
    creditOf n2 r = deltaOf (getGameEndResult r.scores) true := by
  unfold creditOf winsInResult lossesInResult tiesInResult getGameEndResult
  rw [hs]
  interval_cases s1 <;> interval_cases s2 <;> simp [deltaOf, Ne.symm hne]

theorem creditOf_absent (r : GameResult) (n1 n2 : String) (s1 s2 : Nat)
    (hs : r.scores = [(n1, s1), (n2, s2)]) (name : String)
    (hn1 : name ≠ n1) (hn2 : name ≠ n2) :
    creditOf name r = ((0 : Nat), (0 : Nat), (0 : Nat)) := by
  unfold creditOf winsInResult lossesInResult tiesInResult
  rw [hs]
  simp [hn1, hn2]

theorem participates_two (r : GameResult) (n1 n2 : String) (s1 s2 : Nat)
    (hs : r.scores = [(n1, s1), (n2, s2)]) (name : String) :
    participates name r = (decide (n1 = name) || decide (n2 = name)) := by
  unfold participates
  rw [hs]
  simp [List.any_cons]

theorem mapGetLb_processResult (m : List (String × Record3)) (r : GameResult)
    (hwf : wellFormedResult r = true) (name : String) :
    mapGetLb (processResult m r) name
      = (if participates name r then
          some (addR3 ((mapGetLb m name).getD (0, 0, 0)) (creditOf name r))
        else mapGetLb m name) := by
  obtain ⟨n1, s1, n2, s2, hs, hne, h1, h2⟩ := wellFormed_destruct r hwf
  have hproc : processResult m r
      = mapSetLb
          (mapSetLb m n1
            (calculatePlayerRecordTuple m n1 (getGameEndResult r.scores) false))
          n2
          (calculatePlayerRecordTuple m n2 (getGameEndResult r.scores) true) := by
    unfold processResult
    rw [hs]
  rw [hproc, participates_two r n1 n2 s1 s2 hs name]
  by_cases hn1 : name = n1
  · subst hn1
    rw [mapGetLb_mapSetLb_ne _ n2 name _ (Ne.symm hne),
      mapGetLb_mapSetLb_same, calc_eq_addR3,
      creditOf_p1 r name n2 s1 s2 hs hne h1 h2]
    simp
  · by_cases hn2 : name = n2
    · subst hn2
      rw [mapGetLb_mapSetLb_same, calc_eq_addR3,
        creditOf_p2 r n1 name s1 s2 hs hne h1 h2]
      simp
    · rw [mapGetLb_mapSetLb_ne _ n2 name _ (fun h => hn2 h.symm),
        mapGetLb_mapSetLb_ne _ n1 name _ (fun h => hn1 h.symm)]
      rw [if_neg]
      simp only [Bool.or_eq_true, decide_eq_true_eq]
      rintro (h | h)
      · exact hn1 h.symm
      · exact hn2 h.symm

theorem creditOf_not_part (r : GameResult) (hwf : wellFormedResult r = true)
    (name : String) (hpart : participates name r = false) :
    creditOf name r = ((0 : Nat), (0 : Nat), (0 : Nat)) := by
  obtain ⟨n1, s1, n2, s2, hs, hne, h1, h2⟩ := wellFormed_destruct r hwf
  rw [participates_two r n1 n2 s1 s2 hs name] at hpart
  simp only [Bool.or_eq_false_iff, decide_eq_false_iff_not] at hpart
  exact creditOf_absent r n1 n2 s1 s2 hs name (fun h => hpart.1 h.symm)
    (fun h => hpart.2 h.symm)

theorem mapGetLb_foldl_process (rs : List GameResult)
    (hwf : ∀ r ∈ rs, wellFormedResult r = true) (m : List (String × Record3))
    (name : String) :
    mapGetLb (rs.foldl processResult m) name
      = (match mapGetLb m name with
        | some v => some (addR3 v (creditsOf name rs))
        | none =>
          if rs.any (participates name) then some (creditsOf name rs)
          else none) := by
  induction rs generalizing m with
  | nil =>
    rw [List.foldl_nil]
    cases hv : mapGetLb m name with
    | some v => simp [creditsOf, specWins, specLosses, specTies, addR3]
    | none => simp
  | cons r rest ih =>
    rw [List.foldl_cons,
      ih (fun r2 h2 => hwf r2 (List.mem_cons_of_mem r h2)),
      mapGetLb_processResult m r (hwf r (List.mem_cons_self r rest)) name]
    cases hpart : participates name r with
    | true =>
      rw [if_pos rfl]
      cases hv : mapGetLb m name with
      | some v => simp [creditsOf_cons, addR3_assoc]
      | none => simp [creditsOf_cons, List.any_cons, hpart, addR3]
    | false =>
      rw [if_neg (by simp)]
      have hc0 : creditOf name r = ((0 : Nat), (0 : Nat), (0 : Nat)) :=
        creditOf_not_part r (hwf r (List.mem_cons_self r rest)) name hpart
      have hcs : creditsOf name (r :: rest) = creditsOf name rest := by
        rw [creditsOf_cons, hc0, zero_addR3]
      have hany : (r :: rest).any (participates name)
          = rest.any (participates name) := by
        simp [List.any_cons, hpart]
      rw [hcs, hany]

theorem mapGetLb_isSome_any (m : List (String × Record3)) (k : String) :
    (mapGetLb m k).isSome = m.any (fun e => decide (e.1 = k)) := by
  induction m with
  | nil => rfl
  | cons e t ih =>
    by_cases hek : e.1 = k
    · rw [mapGetLb_cons_eq _ _ _ hek]
      simp [List.any_cons, hek]
    · rw [mapGetLb_cons_ne _ _ _ hek]
      simp [List.any_cons, hek, ih]

theorem mapSetLb_keys_present (m : List (String × Record3)) (k : String)
    (v : Record3) (h : m.any (fun e => decide (e.1 = k)) = true) :
    (mapSetLb m k v).map Prod.fst = m.map Prod.fst := by
  unfold mapSetLb
  rw [if_pos h, List.map_map]
  apply List.map_congr_left
  intro e he
  by_cases hek : e.1 = k
  · simp [Function.comp, hek]
  · simp [Function.comp, hek]

theorem mapSetLb_keys_absent (m : List (String × Record3)) (k : String)
    (v : Record3) (h : m.any (fun e => decide (e.1 = k)) = false) :
    (mapSetLb m k v).map Prod.fst = m.map Prod.fst ++ [k] := by
  unfold mapSetLb
  rw [if_neg (by simp [h])]
  simp

theorem mapSetLb_keys_nodup (m : List (String × Record3)) (k : String)
    (v : Record3) (hnd : (m.map Prod.fst).Nodup) :
    ((mapSetLb m k v).map Prod.fst).Nodup := by
  cases h : m.any (fun e => decide (e.1 = k)) with
  | true =>
    rw [mapSetLb_keys_present m k v h]
    exact hnd
  | false =>
    rw [mapSetLb_keys_absent m k v h]
    have hk : k ∉ m.map Prod.fst := by
      intro hmem
      obtain ⟨e, he, hfst⟩ := List.mem_map.mp hmem
      have hc : m.any (fun e2 => decide (e2.1 = k)) = true :=
        List.any_eq_true.mpr ⟨e, he, by simp [hfst]⟩
      rw [h] at hc
      exact absurd hc (by simp)
    apply List.Nodup.append hnd (List.nodup_singleton k)
    intro a ha hb
    simp only [List.mem_singleton] at hb
    subst hb
    exact hk ha

theorem processResult_keys_nodup (m : List (String × Record3)) (r : GameResult)
    (hnd : (m.map Prod.fst).Nodup) :
    ((processResult m r).map Prod.fst).Nodup := by
  unfold processResult
  split
  · exact mapSetLb_keys_nodup _ _ _ (mapSetLb_keys_nodup _ _ _ hnd)
  · exact hnd

theorem aggregate_keys_nodup (rs : List GameResult) :
    ((leaderboardAggregate rs).map Prod.fst).Nodup := by
  have h : ∀ (rs2 : List GameResult) (m : List (String × Record3)),
      (m.map Prod.fst).Nodup →
        ((rs2.foldl processResult m).map Prod.fst).Nodup := by
    intro rs2
    induction rs2 with
    | nil => intro m hm; exact hm
    | cons r rest ih =>
      intro m hm
      exact ih _ (processResult_keys_nodup m r hm)
  exact h rs [] (by simp)

theorem mem_assoc_get (m : List (String × Record3))
    (hnd : (m.map Prod.fst).Nodup) (e : String × Record3) (he : e ∈ m) :
    mapGetLb m e.1 = some e.2 := by
  induction m with
  | nil => simp at he
  | cons a t ih =>
    rw [List.map_cons] at hnd
    have hnd2 := List.nodup_cons.mp hnd
    rcases List.mem_cons.mp he with heq | hmem
    · subst heq
      rw [mapGetLb_cons_eq _ _ _ rfl]
    · have ha : ¬a.1 = e.1 := by
        intro hc
        apply hnd2.1
        rw [hc]
        exact List.mem_map.mpr ⟨e, hmem, rfl⟩
      rw [mapGetLb_cons_ne _ _ _ ha]
      exact ih hnd2.2 hmem

theorem insertByWinsDesc_perm (x : String × Record3)
    (l : List (String × Record3)) :
    List.Perm (insertByWinsDesc x l) (x :: l) := by
  induction l with
  | nil => exact List.Perm.refl _
  | cons y ys ih =>
    unfold insertByWinsDesc
    by_cases h : y.2.1 > x.2.1
    · rw [if_pos h]
      exact (List.Perm.cons y ih).trans (List.Perm.swap x y ys)
    · rw [if_neg h]

theorem sortByWinsDesc_perm (l : List (String × Record3)) :
    List.Perm (sortByWinsDesc l) l := by
  induction l with
  | nil => exact List.Perm.refl _
  | cons a t ih =>
    have hstep : sortByWinsDesc (a :: t) = insertByWinsDesc a (sortByWinsDesc t) :=
      rfl
    rw [hstep]
    exact (insertByWinsDesc_perm a (sortByWinsDesc t)).trans (List.Perm.cons a ih)

theorem sorted_insertByWinsDesc (x : String × Record3)
    (l : List (String × Record3))
    (h : List.Pairwise (fun a b => b.2.1 ≤ a.2.1) l) :
    List.Pairwise (fun a b => b.2.1 ≤ a.2.1) (insertByWinsDesc x l) := by
  induction l with
  | nil => simp [insertByWinsDesc]
  | cons y ys ih =>
    rcases List.pairwise_cons.mp h with ⟨hy, hys⟩
    unfold insertByWinsDesc
    by_cases hc : y.2.1 > x.2.1
    · rw [if_pos hc]
      apply List.pairwise_cons.mpr
      constructor
      · intro z hz
        have hz2 : z ∈ x :: ys := (insertByWinsDesc_perm x ys).subset hz
        rcases List.mem_cons.mp hz2 with hzx | hzys
        · subst hzx
          omega
        · exact hy z hzys
      · exact ih hys
    · rw [if_neg hc]
      apply List.pairwise_cons.mpr
      constructor
      · intro z hz
        rcases List.mem_cons.mp hz with hzy | hzys
        · subst hzy
          omega
        · have := hy z hzys
          omega
      · exact h

theorem sorted_sortByWinsDesc (l : List (String × Record3)) :
    List.Pairwise (fun a b => b.2.1 ≤ a.2.1) (sortByWinsDesc l) := by
  induction l with
  | nil => simp [sortByWinsDesc]
  | cons a t ih => exact sorted_insertByWinsDesc a _ ih

theorem perm_any {α : Type} {l l2 : List α} (h : List.Perm l l2)
    (p : α → Bool) : l.any p = l2.any p := by
  cases hb : l2.any p with
  | true =>
    obtain ⟨a, ha, hp⟩ := List.any_eq_true.mp hb
    exact List.any_eq_true.mpr ⟨a, h.symm.subset ha, hp⟩
  | false =>
    rw [List.any_eq_false]
    intro x hx
    exact List.any_eq_false.mp hb x (h.subset hx)

/-- C8: for every sequence of two-participant results (distinct names,
0/1 scores), the leaderboard has exactly one entry per distinct
participant name, is sorted descending by wins, credits the score-1
participant of each unequal result a win and the other a loss, credits
both participants of an equal-score result a tie, accumulates counts
across results (see `creditsOf`), and maps the empty input to the empty
output. -/
theorem leaderboard_correct (rs : List GameResult)
    (hwf : ∀ r ∈ rs, wellFormedResult r = true) :
    (rs = [] → leaderboard rs = [])
    ∧ List.Pairwise (fun a b => b.2.1 ≤ a.2.1) (leaderboard rs)
    ∧ ((leaderboard rs).map Prod.fst).Nodup
    ∧ (∀ name : String,
        (leaderboard rs).any (fun e => decide (e.1 = name))
          = rs.any (participates name))
    ∧ (∀ e ∈ leaderboard rs, e.2 = creditsOf e.1 rs) := by
  unfold leaderboard
  have hperm := sortByWinsDesc_perm (leaderboardAggregate rs)
  refine ⟨?_, sorted_sortByWinsDesc _, ?_, ?_, ?_⟩
  · intro h
    subst h
    rfl
  · exact (List.Perm.nodup_iff (hperm.map Prod.fst)).mpr (aggregate_keys_nodup rs)
  · intro name
    rw [perm_any hperm, ← mapGetLb_isSome_any,
      show leaderboardAggregate rs = rs.foldl processResult [] from rfl,
      mapGetLb_foldl_process rs hwf [] name]
    cases hany : rs.any (participates name) <;> simp [hany, mapGetLb]
  · intro e he
    have hget := mem_assoc_get _ (aggregate_keys_nodup rs) e (hperm.subset he)
    rw [show leaderboardAggregate rs = rs.foldl processResult [] from rfl,
      mapGetLb_foldl_process rs hwf [] e.1] at hget
    by_cases hany : rs.any (participates e.1) = true
    · simp only [hany] at hget
      simp only [mapGetLb, List.find?_nil, Option.map_none'] at hget
      simp only [if_true] at hget
      exact (Option.some.injEq _ _ ▸ hget).symm
    · simp only [mapGetLb, List.find?_nil, Option.map_none'] at hget
      rw [if_neg hany] at hget
      exact absurd hget (by simp)

/-- Witness for C8 at the spec's second example: A beats B, then A beats
C. -/
theorem leaderboard_correct_witness :
    (∀ r ∈ [GameResult.mk "g1" [("A", 1), ("B", 0)],
        GameResult.mk "g2" [("A", 1), ("C", 0)]],
      wellFormedResult r = true)
    ∧ (([ GameResult.mk "g1" [("A", 1), ("B", 0)],
          GameResult.mk "g2" [("A", 1), ("C", 0)]] = ([] : List GameResult) →
        leaderboard [GameResult.mk "g1" [("A", 1), ("B", 0)],
          GameResult.mk "g2" [("A", 1), ("C", 0)]] = [])
      ∧ List.Pairwise (fun a b => b.2.1 ≤ a.2.1)
          (leaderboard [GameResult.mk "g1" [("A", 1), ("B", 0)],
            GameResult.mk "g2" [("A", 1), ("C", 0)]])
      ∧ ((leaderboard [GameResult.mk "g1" [("A", 1), ("B", 0)],
            GameResult.mk "g2" [("A", 1), ("C", 0)]]).map Prod.fst).Nodup
      ∧ (∀ name : String,
          (leaderboard [GameResult.mk "g1" [("A", 1), ("B", 0)],
            GameResult.mk "g2" [("A", 1), ("C", 0)]]).any
              (fun e => decide (e.1 = name))
            = ([GameResult.mk "g1" [("A", 1), ("B", 0)],
                GameResult.mk "g2" [("A", 1), ("C", 0)]]).any
                (participates name))
      ∧ (∀ e ∈ leaderboard [GameResult.mk "g1" [("A", 1), ("B", 0)],
            GameResult.mk "g2" [("A", 1), ("C", 0)]],
          e.2 = creditsOf e.1 [GameResult.mk "g1" [("A", 1), ("B", 0)],
            GameResult.mk "g2" [("A", 1), ("C", 0)]])) :=
  ⟨by decide,
    leaderboard_correct
      [GameResult.mk "g1" [("A", 1), ("B", 0)],
        GameResult.mk "g2" [("A", 1), ("C", 0)]]
      (by decide)⟩
